import Mathlib

/-!
Shallow embedding of the cogserver `GenericShell` session engine
(`src/opencog/cogserver/shell/GenericShell.cc`).

Lines of input are modelled as lists of bytes (`List Nat`, each entry a
byte value).  The shell's mutable members become a `ShellState` record;
calls made to the pluggable evaluator (`interrupt`, `clear_pending`,
`begin_eval`, `eval_expr`) are recorded as an event trace, while the
evaluator's queryable bits (`input_pending`, `eval_error`) and its
buffered output are an `EvalState` record.  Each C++ member function is
translated into a pure Lean function over these records.
-/

namespace GenericShell

/-- Telnet IAC: Interpret As Command (RFC 854). -/
def IAC : Nat := 0xff
/-- Telnet IP: Interrupt Process. -/
def IP : Nat := 0xf4
/-- Telnet AO: Abort Output. -/
def AO : Nat := 0xf5
/-- Telnet EL: Erase Line. -/
def EL : Nat := 0xf8
/-- Telnet WILL. -/
def WILL : Nat := 0xfb
/-- Telnet RFC 860 timing mark. -/
def TIMING_MARK : Nat := 0x6
/-- ASCII EOT: end of transmission, ctrl-D. -/
def EOT : Nat := 0x4
/-- ASCII SYN: quit, ctrl-C. -/
def SYN : Nat := 0x16
/-- ASCII CAN: cancel, ctrl-X. -/
def CAN : Nat := 0x18
/-- ASCII ESC: escape, ctrl-[. -/
def ESC : Nat := 0x1b

/-- The mutable members of a `GenericShell` object. -/
structure ShellState where
  show_output : Bool
  show_prompt : Bool
  normal_prompt : List Nat
  pending_prompt : List Nat
  abort_prompt : List Nat
  pending_output : List Nat
  eval_done : Bool
  poll_needed : Bool
  self_destruct : Bool
deriving DecidableEq, Repr

/-- The members as set by the `GenericShell` constructor:
prompts `"> "` and `"... "`, the 4-byte abort prompt
IAC WILL TIMING-MARK newline, output and prompt display on. -/
def initShell : ShellState :=
  { show_output := true
    show_prompt := true
    normal_prompt := [0x3e, 0x20]
    pending_prompt := [0x2e, 0x2e, 0x2e, 0x20]
    abort_prompt := [IAC, WILL, TIMING_MARK, 0x0a]
    pending_output := []
    eval_done := false
    poll_needed := false
    self_destruct := false }

/-- One call made to the evaluator capability. -/
inductive Event where
  | interrupt : Event
  | clearPending : Event
  | beginEval : Event
  | evalExpr : List Nat → Event
deriving DecidableEq, Repr

/-- The observable side of the evaluator: the `input_pending` and
`eval_error` bits, and the queue of output chunks successive
`poll_result` calls will hand back (an empty queue means the
evaluator currently has nothing buffered). -/
structure EvalState where
  input_pending : Bool
  eval_error : Bool
  output : List (List Nat)
deriving DecidableEq, Repr

/-- `GenericShell::put_output`: append to the pending-output buffer. -/
def put_output (st : ShellState) (s : List Nat) : ShellState :=
  { st with pending_output := st.pending_output ++ s }

/-- `GenericShell::get_prompt`: empty when prompts are hushed, else the
pending or the normal prompt according to `input_pending`. -/
def get_prompt (st : ShellState) (inputPending : Bool) : List Nat :=
  if !st.show_prompt then []
  else if inputPending then st.pending_prompt
  else st.normal_prompt

/-- Outcome of the trailing-window IAC scan in
`GenericShell::line_discipline`. -/
inductive IacHit where
  | interruptAbort : IacHit
  | eraseLine : IacHit
deriving DecidableEq, Repr

/-- One probe of the IAC scan: is `expr[i]` the IAC byte, and if so is
`expr[i+1]` an interrupt/abort marker or the erase-line marker?
A non-matching follower lets the scan continue, as in the C++ loop. -/
def iacCheckAt (expr : List Nat) (i : Nat) : Option IacHit :=
  if expr.getD i 0 = IAC then
    let c := expr.getD (i + 1) 0
    if c = IP ∨ c = AO then some IacHit.interruptAbort
    else if c = EL then some IacHit.eraseLine
    else none
  else none

/-- The scan loop: with fuel `k + 1` the probe index is `m + k`, so the
indices `m + k, m + k - 1, …, m` are probed from the end backward and
the nearest hit to the end of the line wins. -/
def iacScanGo (expr : List Nat) (m : Nat) : Nat → Option IacHit
  | 0 => none
  | k + 1 =>
    match iacCheckAt expr (m + k) with
    | some h => some h
    | none => iacScanGo expr m k

/-- The trailing-window scan of `GenericShell::line_discipline`:
`i` starts at `len - 2` and runs down to `m = max (len - 20) 0`,
so the probed indices are exactly `m … len - 2` (none when the line is
shorter than two bytes). -/
def iacScan (expr : List Nat) : Option IacHit :=
  let len := expr.length
  if len < 2 then none
  else iacScanGo expr (len - 20) (len - 1 - (len - 20))

/-- `GenericShell::do_eval`: reset the `eval_done` latch, mark polling
needed, call `begin_eval` and hand the input to `eval_expr` (run on the
evaluation thread in the C++ code). -/
def do_eval (st : ShellState) (input : List Nat) : ShellState × List Event :=
  ({ st with eval_done := false, poll_needed := true },
   [Event.beginEval, Event.evalExpr input])

/-- `GenericShell::line_discipline`, with the evaluator's
`input_pending` answer passed in as `ip`.  Returns the updated shell
state and the trace of evaluator calls made. -/
def line_discipline (st : ShellState) (ip : Bool) (expr : List Nat) :
    ShellState × List Event :=
  let len := expr.length
  if len = 0 then do_eval st [0x0a]
  else if iacScan expr = some IacHit.interruptAbort then
    (put_output st st.abort_prompt, [Event.interrupt, Event.clearPending])
  else if iacScan expr = some IacHit.eraseLine then
    (put_output st (get_prompt st ip), [])
  else
    let c := expr.getD (len - 1) 0
    if c = SYN ∨ c = CAN ∨ c = ESC then
      (put_output (put_output st [0x0a]) st.normal_prompt,
       [Event.interrupt, Event.clearPending])
    else if ip = false ∧ (c = EOT ∨ (len = 1 ∧ expr.getD 0 0 = 0x2e)) then
      let st1 := put_output { st with self_destruct := true } []
      (if st.show_prompt then
        put_output st1 [0x45, 0x78, 0x69, 0x74, 0x69, 0x6e, 0x67, 0x20,
          0x74, 0x68, 0x65, 0x20, 0x73, 0x68, 0x65, 0x6c, 0x6c, 0x0a]
       else st1, [])
    else do_eval st (expr ++ [0x0a])

/-- `GenericEval::poll_result` as the shell sees it: the next buffered
chunk, or the empty string when nothing is buffered. -/
def poll_result (ev : EvalState) : List Nat × EvalState :=
  match ev.output with
  | [] => ([], ev)
  | chunk :: rest => (chunk, { ev with output := rest })

/-- `GenericShell::poll_output`: pending output first, then the
evaluator's buffered output, then — once per cycle, guarded by the
`eval_done` latch — the prompt, then the empty string. -/
def poll_output (st : ShellState) (ev : EvalState) :
    List Nat × ShellState × EvalState :=
  if 0 < st.pending_output.length then
    (st.pending_output, { st with pending_output := [] }, ev)
  else
    let pr := poll_result ev
    if 0 < pr.1.length then (pr.1, st, pr.2)
    else if st.eval_done then ([], st, pr.2)
    else
      let st1 := { st with eval_done := true }
      let prompt :=
        if pr.2.input_pending then
          if st.show_output && st.show_prompt then st.pending_prompt else []
        else if st.show_output || pr.2.eval_error then
          if st.show_prompt then st.normal_prompt else []
        else []
      (prompt, st1, pr.2)

/-- The socket-binding side of a shell: `GenericShell::socket`,
identifying sockets by number. -/
structure ShellSock where
  socket : Option Nat
deriving DecidableEq, Repr

/-- A call made to the console-socket capability. -/
inductive SockEvent where
  | setShell : Nat → SockEvent
deriving DecidableEq, Repr

/-- `GenericShell::set_socket`: `OC_ASSERT(socket==nullptr, ...)` is a
fatal precondition failure, modelled as an error result; otherwise the
socket is stored and `SetShell` is called on it. -/
def set_socket (st : ShellSock) (s : Nat) :
    Except String (ShellSock × List SockEvent) :=
  match st.socket with
  | some _ => Except.error "Shell already associated with socket!"
  | none => Except.ok ({ socket := some s }, [SockEvent.setShell s])

/-- A line on which the trailing-window scan found an escape sequence
has at least two bytes, hence is not the empty line. -/
theorem iacScan_some_length {expr : List Nat} {h : IacHit}
    (hs : iacScan expr = some h) : expr.length ≠ 0 := by
  intro h0
  simp [iacScan, h0] at hs

/-- A singleton line is exactly the line of length one whose sole byte
is the given one (the form the exit check in the source tests). -/
theorem length_one_getD {expr : List Nat} {a : Nat} :
    (expr.length = 1 ∧ expr.getD 0 0 = a) ↔ expr = [a] := by
  cases expr with
  | nil => simp
  | cons b t => cases t <;> simp [List.getD]

/-- C7: submitting a zero-length line invokes the evaluator's
`eval_expr` exactly once, with the single newline character as its
argument, bypassing all escape, control-byte and exit checks. -/
theorem c7_empty_line (st : ShellState) (ip : Bool) :
    (line_discipline st ip []).2 = [Event.beginEval, Event.evalExpr [0x0a]] := by
  simp [line_discipline, do_eval]

/-- C2 (counterexample): the line IAC IP IAC EL contains the 2-byte
escape 0xFF 0xF4 within its trailing 20-byte window, yet submitting it
invokes neither `interrupt` nor `clear_pending` (the nearer erase-line
escape wins): the event trace is empty and what is relayed is the
prompt, not the 4-byte abort acknowledgment. -/
theorem c2_counterexample :
    ([0xff, 0xf4, 0xff, 0xf8] : List Nat).getD 0 0 = 0xff
    ∧ ([0xff, 0xf4, 0xff, 0xf8] : List Nat).getD 1 0 = 0xf4
    ∧ (line_discipline initShell false [0xff, 0xf4, 0xff, 0xf8]).2 = []
    ∧ (line_discipline initShell false [0xff, 0xf4, 0xff, 0xf8]).1.pending_output
        = [0x3e, 0x20]
    ∧ ([0x3e, 0x20] : List Nat) ≠ [0xff, 0xfb, 0x06, 0x0a] := by
  decide

/-- C2 (amended): for every input line on which the backward
trailing-window scan finds the escape 0xFF followed by 0xF4 or 0xF5 as
the nearest recognized escape sequence, submitting the line never
invokes `eval_expr`; it invokes `interrupt` and `clear_pending` exactly
once each, and relays exactly the fixed 4-byte abort acknowledgment
0xFF 0xFB 0x06 newline. -/
theorem c2_interrupt_escape_amended (st : ShellState) (ip : Bool)
    (ev : EvalState) (expr : List Nat)
    (h : iacScan expr = some IacHit.interruptAbort) :
    (line_discipline st ip expr).2 = [Event.interrupt, Event.clearPending]
    ∧ (line_discipline st ip expr).1.pending_output
        = st.pending_output ++ st.abort_prompt
    ∧ initShell.abort_prompt = [0xff, 0xfb, 0x06, 0x0a]
    ∧ (poll_output (line_discipline initShell ip expr).1 ev).1
        = [0xff, 0xfb, 0x06, 0x0a] := by
  have hlen : ¬ expr.length = 0 := iacScan_some_length h
  refine ⟨?_, ?_, by decide, ?_⟩
  · simp [line_discipline, hlen, h]
  · simp [line_discipline, hlen, h, put_output]
  · simp [line_discipline, hlen, h, put_output, poll_output, initShell,
      IAC, WILL, TIMING_MARK]

/-- C2 (witness): the two-byte line IAC IP takes the interrupt path. -/
theorem c2_interrupt_escape_witness :
    iacScan [0xff, 0xf4] = some IacHit.interruptAbort
    ∧ ((line_discipline initShell false [0xff, 0xf4]).2
        = [Event.interrupt, Event.clearPending]
      ∧ (line_discipline initShell false [0xff, 0xf4]).1.pending_output
          = initShell.pending_output ++ initShell.abort_prompt
      ∧ initShell.abort_prompt = [0xff, 0xfb, 0x06, 0x0a]
      ∧ (poll_output (line_discipline initShell false [0xff, 0xf4]).1
          ⟨false, false, []⟩).1 = [0xff, 0xfb, 0x06, 0x0a]) :=
  ⟨by decide,
   c2_interrupt_escape_amended initShell false ⟨false, false, []⟩
     [0xff, 0xf4] (by decide)⟩

/-- C8: a line whose last byte is 0x1B (escape), 0x18 (cancel) or 0x16
(quit), on which no trailing escape sequence matched, never invokes
`eval_expr`; it invokes the evaluator's `interrupt` and `clear_pending`,
and relays a newline followed by the normal prompt. -/
theorem c8_control_byte (st : ShellState) (ip : Bool) (expr : List Nat)
    (hne : expr ≠ [])
    (hscan : iacScan expr = none)
    (hctl : expr.getD (expr.length - 1) 0 = SYN
      ∨ expr.getD (expr.length - 1) 0 = CAN
      ∨ expr.getD (expr.length - 1) 0 = ESC) :
    (line_discipline st ip expr).2 = [Event.interrupt, Event.clearPending]
    ∧ (line_discipline st ip expr).1.pending_output
        = st.pending_output ++ [0x0a] ++ st.normal_prompt := by
  have hlen : ¬ expr.length = 0 := by simpa using hne
  rcases hctl with hc | hc | hc <;>
    simp only [List.getD_eq_getElem?_getD] at hc <;>
    constructor <;>
      simp [line_discipline, hlen, hscan, hc, put_output, List.append_assoc]

/-- C8 (witness): the single-byte escape line. -/
theorem c8_control_byte_witness :
    (([0x1b] : List Nat) ≠ []
      ∧ iacScan [0x1b] = none
      ∧ ([0x1b] : List Nat).getD 0 0 = ESC)
    ∧ ((line_discipline initShell false [0x1b]).2
        = [Event.interrupt, Event.clearPending]
      ∧ (line_discipline initShell false [0x1b]).1.pending_output
          = initShell.pending_output ++ [0x0a] ++ initShell.normal_prompt) :=
  ⟨⟨by decide, by decide, by decide⟩,
   c8_control_byte initShell false [0x1b] (by decide) (by decide)
     (Or.inr (Or.inr (by decide)))⟩

/-- C10: on the trailing-raw-control-byte path the newline and the
normal prompt are appended to the pending output unconditionally — even
when `show_prompt` and `show_output` are false — while the erase-line
path queues `get_prompt`, hence queues nothing when `show_prompt` is
false. -/
theorem c10_unconditional_prompt (st : ShellState) (ip : Bool)
    (e1 e2 : List Nat)
    (h1 : iacScan e1 = none) (hne : e1 ≠ [])
    (hctl : e1.getD (e1.length - 1) 0 = SYN
      ∨ e1.getD (e1.length - 1) 0 = CAN
      ∨ e1.getD (e1.length - 1) 0 = ESC)
    (h2 : iacScan e2 = some IacHit.eraseLine)
    (hsp : st.show_prompt = false) :
    (line_discipline st ip e1).1.pending_output
        = st.pending_output ++ [0x0a] ++ st.normal_prompt
    ∧ (line_discipline st ip e2).1.pending_output = st.pending_output := by
  have hlen1 : ¬ e1.length = 0 := by simpa using hne
  have hlen2 : ¬ e2.length = 0 := iacScan_some_length h2
  constructor
  · rcases hctl with hc | hc | hc <;>
      simp only [List.getD_eq_getElem?_getD] at hc <;>
      simp [line_discipline, hlen1, h1, hc, put_output, List.append_assoc]
  · simp [line_discipline, hlen2, h2, put_output, get_prompt, hsp]

/-- C10 (witness): with both display toggles off, a trailing ctrl-X
still queues newline plus normal prompt, while an erase-line escape
queues nothing. -/
theorem c10_unconditional_prompt_witness :
    (iacScan [0x18] = none
      ∧ ([0x18] : List Nat) ≠ []
      ∧ ([0x18] : List Nat).getD 0 0 = CAN
      ∧ iacScan [0xff, 0xf8] = some IacHit.eraseLine
      ∧ ({ initShell with show_prompt := false, show_output := false }
          : ShellState).show_prompt = false)
    ∧ ((line_discipline
          { initShell with show_prompt := false, show_output := false }
          false [0x18]).1.pending_output
        = ({ initShell with show_prompt := false, show_output := false }
            : ShellState).pending_output ++ [0x0a]
          ++ ({ initShell with show_prompt := false, show_output := false }
              : ShellState).normal_prompt
      ∧ (line_discipline
          { initShell with show_prompt := false, show_output := false }
          false [0xff, 0xf8]).1.pending_output
        = ({ initShell with show_prompt := false, show_output := false }
            : ShellState).pending_output) :=
  ⟨⟨by decide, by decide, by decide, by decide, by decide⟩,
   c10_unconditional_prompt
     { initShell with show_prompt := false, show_output := false }
     false [0x18] [0xff, 0xf8] (by decide) (by decide)
     (Or.inr (Or.inl (by decide))) (by decide) (by decide)⟩

/-- When the line is non-empty, the trailing-window scan found nothing,
the final byte is none of the three raw control bytes, and the exit
check fails, the line discipline reaches `do_eval` with the line plus a
re-appended newline. -/
theorem line_discipline_eval_branch (st : ShellState) (ip : Bool)
    (expr : List Nat)
    (hne : expr ≠ [])
    (hscan : iacScan expr = none)
    (hctl : ¬ (expr.getD (expr.length - 1) 0 = SYN
      ∨ expr.getD (expr.length - 1) 0 = CAN
      ∨ expr.getD (expr.length - 1) 0 = ESC))
    (hexit : ¬ (ip = false ∧ (expr.getD (expr.length - 1) 0 = EOT
      ∨ (expr.length = 1 ∧ expr.getD 0 0 = 0x2e)))) :
    line_discipline st ip expr
      = ({ st with eval_done := false, poll_needed := true },
         [Event.beginEval, Event.evalExpr (expr ++ [0x0a])]) := by
  have hlen : ¬ expr.length = 0 := by simpa using hne
  simp only [List.getD_eq_getElem?_getD] at hctl hexit
  simp [line_discipline, hlen, hscan, hctl, hexit, do_eval]

/-- When the line is non-empty, the trailing-window scan found nothing,
the final byte is not a raw control byte, and the exit check holds, the
line discipline sets `self_destruct` and makes no evaluator call. -/
theorem line_discipline_exit_branch (st : ShellState) (ip : Bool)
    (expr : List Nat)
    (hne : expr ≠ [])
    (hscan : iacScan expr = none)
    (hctl : ¬ (expr.getD (expr.length - 1) 0 = SYN
      ∨ expr.getD (expr.length - 1) 0 = CAN
      ∨ expr.getD (expr.length - 1) 0 = ESC))
    (hexit : ip = false ∧ (expr.getD (expr.length - 1) 0 = EOT
      ∨ (expr.length = 1 ∧ expr.getD 0 0 = 0x2e))) :
    (line_discipline st ip expr).1.self_destruct = true
    ∧ (line_discipline st ip expr).2 = [] := by
  have hlen : ¬ expr.length = 0 := by simpa using hne
  obtain ⟨hip, hor⟩ := hexit
  rcases hor with h1 | h2
  · simp only [List.getD_eq_getElem?_getD] at hctl h1
    cases hsp : st.show_prompt <;>
      simp [line_discipline, hlen, hscan, hctl, hip, h1, put_output, hsp,
        EOT, SYN, CAN, ESC]
  · have he : expr = [0x2e] := length_one_getD.mp h2
    subst he
    cases hsp : st.show_prompt <;>
      simp [line_discipline, hip, hsp, put_output, iacScan, iacScanGo,
        iacCheckAt, IAC, EOT, SYN, CAN, ESC]

/-- C4 (counterexample): the two-byte line 'A' EOT is neither a lone
end-of-transmission byte nor the single character '.', yet (with no
multi-line expression pending) submitting it emits the Exit action:
`self_destruct` is set and no evaluator call is made. -/
theorem c4_counterexample :
    iacScan [0x41, 0x04] = none
    ∧ (line_discipline initShell false [0x41, 0x04]).1.self_destruct = true
    ∧ (line_discipline initShell false [0x41, 0x04]).2 = []
    ∧ ([0x41, 0x04] : List Nat) ≠ [0x04]
    ∧ ([0x41, 0x04] : List Nat) ≠ [0x2e] := by
  decide

/-- C4 (amended): when no trailing escape sequence and no final raw
control byte matched, the line discipline emits the Exit action (sets
`self_destruct` and starts no evaluation) exactly when the evaluator
reports no multi-line expression pending and either the line's final
byte is the end-of-transmission byte 0x04 or the line is the single
character '.'. -/
theorem c4_exit_amended (st : ShellState) (ip : Bool) (expr : List Nat)
    (hsd : st.self_destruct = false)
    (hne : expr ≠ [])
    (hscan : iacScan expr = none)
    (hctl : ¬ (expr.getD (expr.length - 1) 0 = SYN
      ∨ expr.getD (expr.length - 1) 0 = CAN
      ∨ expr.getD (expr.length - 1) 0 = ESC)) :
    ((line_discipline st ip expr).1.self_destruct = true
      ∧ (line_discipline st ip expr).2 = [])
    ↔ (ip = false
      ∧ (expr.getD (expr.length - 1) 0 = EOT ∨ expr = [0x2e])) := by
  constructor
  · intro hld
    by_cases hex : ip = false ∧ (expr.getD (expr.length - 1) 0 = EOT
        ∨ (expr.length = 1 ∧ expr.getD 0 0 = 0x2e))
    · exact ⟨hex.1, hex.2.imp id (fun h2 => length_one_getD.mp h2)⟩
    · rw [line_discipline_eval_branch st ip expr hne hscan hctl hex] at hld
      simp [hsd] at hld
  · intro hrhs
    refine line_discipline_exit_branch st ip expr hne hscan hctl ?_
    exact ⟨hrhs.1, hrhs.2.imp id (fun he => length_one_getD.mpr he)⟩

/-- C4 (witness): a lone '.' with nothing pending exits; the same line
with a multi-line expression pending does not. -/
theorem c4_exit_witness :
    (initShell.self_destruct = false
      ∧ ([0x2e] : List Nat) ≠ []
      ∧ iacScan [0x2e] = none
      ∧ ¬ (([0x2e] : List Nat).getD 0 0 = SYN
        ∨ ([0x2e] : List Nat).getD 0 0 = CAN
        ∨ ([0x2e] : List Nat).getD 0 0 = ESC))
    ∧ (((line_discipline initShell false [0x2e]).1.self_destruct = true
        ∧ (line_discipline initShell false [0x2e]).2 = [])
      ↔ (false = false
        ∧ (([0x2e] : List Nat).getD 0 0 = EOT ∨ [0x2e] = [0x2e]))) :=
  ⟨⟨by decide, by decide, by decide, by decide⟩,
   c4_exit_amended initShell false [0x2e] (by decide) (by decide)
     (by decide) (by decide)⟩

/-- C6: any non-empty line not ending in a recognized trailing escape
or raw control byte and not classified as Exit results in exactly one
evaluation cycle: `eval_expr` is invoked exactly once, with the original
line plus a re-appended newline as its argument. -/
theorem c6_evaluate_once (st : ShellState) (ip : Bool) (expr : List Nat)
    (hne : expr ≠ [])
    (hscan : iacScan expr = none)
    (hctl : ¬ (expr.getD (expr.length - 1) 0 = SYN
      ∨ expr.getD (expr.length - 1) 0 = CAN
      ∨ expr.getD (expr.length - 1) 0 = ESC))
    (hexit : ¬ (ip = false ∧ (expr.getD (expr.length - 1) 0 = EOT
      ∨ (expr.length = 1 ∧ expr.getD 0 0 = 0x2e)))) :
    (line_discipline st ip expr).2
      = [Event.beginEval, Event.evalExpr (expr ++ [0x0a])] := by
  rw [line_discipline_eval_branch st ip expr hne hscan hctl hexit]

/-- C6 (witness): the one-byte line 'A' is evaluated as "A\n". -/
theorem c6_evaluate_once_witness :
    (([0x41] : List Nat) ≠ []
      ∧ iacScan [0x41] = none
      ∧ ¬ (([0x41] : List Nat).getD 0 0 = SYN
        ∨ ([0x41] : List Nat).getD 0 0 = CAN
        ∨ ([0x41] : List Nat).getD 0 0 = ESC)
      ∧ ¬ (false = false ∧ (([0x41] : List Nat).getD 0 0 = EOT
        ∨ (([0x41] : List Nat).length = 1
          ∧ ([0x41] : List Nat).getD 0 0 = 0x2e))))
    ∧ (line_discipline initShell false [0x41]).2
        = [Event.beginEval, Event.evalExpr [0x41, 0x0a]] :=
  ⟨⟨by decide, by decide, by decide, by decide⟩,
   c6_evaluate_once initShell false [0x41] (by decide) (by decide)
     (by decide) (by decide)⟩

/-- C3: `poll_output` pulls in strict priority order: a non-empty
pending-output buffer is returned whole and cleared; otherwise a
non-empty evaluator chunk is returned; otherwise the first drained call
takes the `eval_done` latch (and the call after it yields the empty
string); and once the latch is taken a drained cycle yields the empty
string forever, with shell and evaluator state unchanged. -/
theorem c3_poll_output_priority (st : ShellState) (ev : EvalState) :
    (st.pending_output ≠ [] →
      (poll_output st ev).1 = st.pending_output
      ∧ (poll_output st ev).2.1 = { st with pending_output := [] }
      ∧ (poll_output st ev).2.2 = ev)
    ∧ (∀ chunk rest, st.pending_output = [] → ev.output = chunk :: rest →
        chunk ≠ [] →
      (poll_output st ev).1 = chunk
      ∧ (poll_output st ev).2.1 = st
      ∧ (poll_output st ev).2.2 = { ev with output := rest })
    ∧ (st.pending_output = [] → ev.output = [] → st.eval_done = false →
      (poll_output st ev).2.1.eval_done = true
      ∧ (poll_output (poll_output st ev).2.1 (poll_output st ev).2.2).1
          = [])
    ∧ (st.pending_output = [] → ev.output = [] → st.eval_done = true →
      (poll_output st ev).1 = []
      ∧ (poll_output st ev).2.1 = st
      ∧ (poll_output st ev).2.2 = ev) := by
  refine ⟨?_, ?_, ?_, ?_⟩
  · intro h
    have hp : 0 < st.pending_output.length := List.length_pos.mpr h
    simp [poll_output, hp]
  · intro chunk rest hp ho hc
    have hc' : 0 < chunk.length := List.length_pos.mpr hc
    simp [poll_output, poll_result, hp, ho, hc']
  · intro hp ho hd
    simp [poll_output, poll_result, hp, ho, hd]
  · intro hp ho hd
    simp [poll_output, poll_result, hp, ho, hd]

/-- C3 (witness): a queued acknowledgment is returned whole and the
buffer is cleared. -/
theorem c3_poll_output_priority_witness :
    ({ initShell with pending_output := [65] } : ShellState).pending_output
        ≠ []
    ∧ ((poll_output { initShell with pending_output := [65] }
          ⟨false, false, []⟩).1
        = ({ initShell with pending_output := [65] }
            : ShellState).pending_output
      ∧ (poll_output { initShell with pending_output := [65] }
          ⟨false, false, []⟩).2.1
        = { initShell with pending_output := [] }
      ∧ (poll_output { initShell with pending_output := [65] }
          ⟨false, false, []⟩).2.2 = ⟨false, false, []⟩) :=
  ⟨by decide,
   (c3_poll_output_priority { initShell with pending_output := [65] }
     ⟨false, false, []⟩).1 (by decide)⟩

/-- C5 (counterexample): with output display off but prompts still on
(`show_output` false, `show_prompt` true), a drained cycle with a
multi-line expression pending emits nothing, not the pending-prompt:
the pending-prompt is suppressed by `show_output` as well, not only by
`show_prompt`. -/
theorem c5_counterexample :
    ({ initShell with show_output := false } : ShellState).show_prompt
        = true
    ∧ ({ initShell with show_output := false } : ShellState).pending_prompt
        ≠ []
    ∧ (poll_output { initShell with show_output := false }
        ⟨true, false, []⟩).1 = [] := by
  decide

/-- C5 (amended): when an evaluation cycle has fully drained (pending
output empty, evaluator output empty, `eval_done` latch being taken):
if the evaluator reports a multi-line expression still pending, the
pending-prompt is emitted exactly when both `show_output` and
`show_prompt` are true, else nothing; otherwise, if normal output
display is enabled or the evaluator reports an error, the normal
prompt is emitted subject to the prompt-display toggle; otherwise
nothing is emitted. -/
theorem c5_prompt_selection_amended (st : ShellState) (ev : EvalState)
    (hp : st.pending_output = []) (ho : ev.output = [])
    (hd : st.eval_done = false) :
    (ev.input_pending = true →
      (poll_output st ev).1
        = if st.show_output && st.show_prompt then st.pending_prompt
          else [])
    ∧ (ev.input_pending = false →
        (st.show_output = true ∨ ev.eval_error = true) →
      (poll_output st ev).1
        = if st.show_prompt then st.normal_prompt else [])
    ∧ (ev.input_pending = false → st.show_output = false →
        ev.eval_error = false →
      (poll_output st ev).1 = []) := by
  refine ⟨?_, ?_, ?_⟩
  · intro hip
    simp [poll_output, poll_result, hp, ho, hd, hip]
  · intro hip hor
    rcases hor with h | h <;>
      simp [poll_output, poll_result, hp, ho, hd, hip, h]
  · intro hip hso herr
    simp [poll_output, poll_result, hp, ho, hd, hip, hso, herr]

/-- C5 (witness): a drained cycle with input pending and both display
toggles on yields the pending-prompt. -/
theorem c5_prompt_selection_witness :
    (initShell.pending_output = []
      ∧ (⟨true, false, []⟩ : EvalState).output = []
      ∧ initShell.eval_done = false)
    ∧ ((⟨true, false, []⟩ : EvalState).input_pending = true →
      (poll_output initShell ⟨true, false, []⟩).1
        = if initShell.show_output && initShell.show_prompt then
            initShell.pending_prompt
          else []) :=
  ⟨⟨rfl, rfl, rfl⟩,
   (c5_prompt_selection_amended initShell ⟨true, false, []⟩ rfl rfl rfl).1⟩

/-- C9: binding a socket to a session already bound to one is a fatal
precondition failure (the assertion aborts setup, never silently
ignored); binding to an unbound session stores the socket and registers
the session with it via SetShell. -/
theorem c9_set_socket (st : ShellSock) (s : Nat) :
    (st.socket ≠ none →
      set_socket st s
        = Except.error "Shell already associated with socket!")
    ∧ (st.socket = none →
      set_socket st s
        = Except.ok ({ socket := some s }, [SockEvent.setShell s])) := by
  constructor
  · intro h
    cases hs : st.socket with
    | none => exact absurd hs h
    | some x => simp [set_socket, hs]
  · intro h
    simp [set_socket, h]

/-- C9 (witness): a second bind fails; a first bind stores the socket
and calls SetShell. -/
theorem c9_set_socket_witness :
    ((⟨some 3⟩ : ShellSock).socket ≠ none
      ∧ set_socket ⟨some 3⟩ 7
          = Except.error "Shell already associated with socket!")
    ∧ ((⟨none⟩ : ShellSock).socket = none
      ∧ set_socket ⟨none⟩ 7
          = Except.ok (⟨some 7⟩, [SockEvent.setShell 7])) :=
  ⟨⟨by decide, (c9_set_socket ⟨some 3⟩ 7).1 (by decide)⟩,
   ⟨rfl, (c9_set_socket ⟨none⟩ 7).2 rfl⟩⟩

end GenericShell
